import Mathlib

/-
Verification of the toggl-go client library: a shallow embedding of the
reports package (request-parameter encoding, client construction, the
get/checkResponse/decodeJSON pipeline) and of the track/toggl tag methods,
together with theorems settling the specification claims.

JSON (de)serialisation and the HTTP transport live in the Go standard
library, outside this repository; they are modelled as oracles: a response
carries, next to its status code, the outcome (`Except`) that the standard
decoder would produce for each target type the pipeline may decode the body
into.  Pointer mutation is modelled by explicit state passing: a function
that writes through a Go pointer returns the new value of the pointee.
-/

set_option autoImplicit false

/-- Model of Go's `time.Time` restricted to the fields this client reads:
a calendar date-time in UTC.  The zero value is January 1, year 1,
00:00:00 UTC, exactly the instant Go's `IsZero` tests for. -/
structure GoTime where
  year : Int
  month : Nat
  day : Nat
  hour : Nat
  minute : Nat
  second : Nat
  nsec : Nat
deriving DecidableEq

/-- `time.Time.IsZero`: reports whether the time is January 1, year 1,
00:00:00 UTC. -/
def GoTime.isZero (t : GoTime) : Bool :=
  t.year == 1 && t.month == 1 && t.day == 1 &&
  t.hour == 0 && t.minute == 0 && t.second == 0 && t.nsec == 0

def GoTime.zero : GoTime := ⟨1, 1, 1, 0, 0, 0, 0⟩

def padZero (width : Nat) (s : String) : String :=
  if s.length < width then String.mk (List.replicate (width - s.length) '0') ++ s else s

/-- `time.Time.Format("2006-01-02")`: the ISO 8601 date `YYYY-MM-DD`. -/
def GoTime.formatDate (t : GoTime) : String :=
  padZero 4 (toString t.year) ++ "-" ++ padZero 2 (toString t.month) ++ "-" ++
  padZero 2 (toString t.day)

/-- Whether an encoded query (a list of key/value pairs in the order the
`url.Values.Add` calls ran) contains an entry for `key`. -/
def hasKey (values : List (String × String)) (key : String) : Bool :=
  values.any (fun kv => kv.1 == key)

/-- Model of Go's `context.Context` values; the pipeline only tests a
context for nil-ness (a nil context is `Option.none` at the call site). -/
inductive Context where
  | background
deriving DecidableEq

namespace reports

/-- `defaultBaseURL` from the reports package. -/
def defaultBaseURL : String := "https://toggl.com"

/-- `basicAuthPassword`, defined by the Toggl Reports API. -/
def basicAuthPassword : String := "api_token"

/-- Model of `*url.URL` restricted to the components this client touches:
scheme, host and path.  `buildURL` overwrites the path component. -/
structure URL where
  scheme : String
  host : String
  path : String
deriving DecidableEq

/-- `url.URL.String` for the URLs this client builds. -/
def URL.toString (u : URL) : String :=
  u.scheme ++ "://" ++ u.host ++ u.path

/-- Splits a character list at the first occurrence of `://`, returning
what precedes it (the scheme) and what follows it; `none` when there is
no `://`. -/
def breakOnSchemeSep (chars : List Char) : Option (List Char × List Char) :=
  match chars with
  | [] => none
  | c :: rest =>
    if c == ':' then
      match rest with
      | '/' :: '/' :: tail => some ([], tail)
      | _ => none
    else
      match breakOnSchemeSep rest with
      | none => none
      | some (pre, post) => some (c :: pre, post)

/-- Splits the part after `scheme://` into the host (up to the first `/`)
and the path (from that `/` on, empty when there is none). -/
def splitHostPath (chars : List Char) : List Char × List Char :=
  match chars with
  | [] => ([], [])
  | c :: rest =>
    if c == '/' then ([], c :: rest)
    else
      let hp := splitHostPath rest
      (c :: hp.1, hp.2)

/-- Model of the standard library parser `url.Parse`, restricted to the
absolute `scheme://host/path` form this client uses; a string without a
non-empty scheme followed by `://` fails to parse, standing in for the
errors `url.Parse` reports (which `NewClient` and the `baseURL` option
discard, leaving a nil URL). -/
def urlParse (rawurl : String) : Option URL :=
  match breakOnSchemeSep rawurl.data with
  | none => none
  | some (scheme, rest) =>
    if scheme = [] then none
    else
      some ⟨String.mk scheme, String.mk (splitHostPath rest).1,
        String.mk (splitHostPath rest).2⟩

/-- Model of `textproto.CanonicalMIMEHeaderKey`, used by `http.Header.Set`
and `http.Header.Get`: the first letter and every letter following a
hyphen are uppercased, the rest lowercased. -/
def canonicalMIMEHeaderKey (key : String) : String :=
  String.mk (key.data.foldl
    (fun (acc : List Char × Bool) ch =>
      ((acc.1 ++ [if acc.2 then ch.toUpper else ch.toLower]), ch == '-'))
    ([], true)).1

/-- `http.Header.Set`: replaces the entry under the canonical key. -/
def headerSet (h : List (String × String)) (key value : String) : List (String × String) :=
  (h.filter (fun kv => kv.1 != canonicalMIMEHeaderKey key)) ++
    [(canonicalMIMEHeaderKey key, value)]

/-- `http.Header.Get`: the first value under the canonical key, `""` when
the header is absent. -/
def headerGet (h : List (String × String)) (key : String) : String :=
  match h.find? (fun kv => kv.1 == canonicalMIMEHeaderKey key) with
  | some kv => kv.2
  | none => ""

/-- Model of the `*http.Client` transport: either `http.DefaultClient` or a
caller-supplied client, distinguished by an identifier. -/
inductive HTTPTransport where
  | defaultClient
  | custom (id : Nat)
deriving DecidableEq

/-- `reports.Client`: basic request handling shared by all reports. -/
structure Client where
  httpClient : HTTPTransport
  apiToken : String
  header : List (String × String)
  url : Option URL
deriving DecidableEq

/-- `reports.StandardRequestParameters`, field for field. -/
structure StandardRequestParameters where
  UserAgent : String
  WorkSpaceId : String
  Since : GoTime
  Until : GoTime
  Billable : String
  ClientIds : String
  ProjectIds : String
  UserIds : String
  MembersOfGroupIds : String
  OrMembersOfGroupIds : String
  TagIds : String
  TaskIds : String
  TimeEntryIds : String
  Description : String
  WithoutDescription : Bool
  OrderField : String
  OrderDesc : Bool
  DistinctRates : Bool
  Rounding : Bool
  DisplayHours : String
deriving DecidableEq

/-- `StandardRequestParameters.values`: the sequence of `url.Values.Add`
calls the source performs, as a list of key/value pairs.  `user_agent` and
`workspace_id` are added unconditionally (they are required); every other
field is added only under the source's condition. -/
def StandardRequestParameters.values (params : StandardRequestParameters) :
    List (String × String) :=
  [("user_agent", params.UserAgent), ("workspace_id", params.WorkSpaceId)]
  ++ (if !params.Since.isZero then [("since", params.Since.formatDate)] else [])
  ++ (if !params.Until.isZero then [("until", params.Until.formatDate)] else [])
  ++ (if params.Billable != "" then [("billable", params.Billable)] else [])
  ++ (if params.ClientIds != "" then [("client_ids", params.ClientIds)] else [])
  ++ (if params.ProjectIds != "" then [("project_ids", params.ProjectIds)] else [])
  ++ (if params.UserIds != "" then [("user_ids", params.UserIds)] else [])
  ++ (if params.MembersOfGroupIds != ""
      then [("members_of_group_ids", params.MembersOfGroupIds)] else [])
  ++ (if params.OrMembersOfGroupIds != ""
      then [("or_members_of_group_ids", params.OrMembersOfGroupIds)] else [])
  ++ (if params.TagIds != "" then [("tag_ids", params.TagIds)] else [])
  ++ (if params.TaskIds != "" then [("task_ids", params.TaskIds)] else [])
  ++ (if params.TimeEntryIds != "" then [("time_entry_ids", params.TimeEntryIds)] else [])
  ++ (if params.Description != "" then [("description", params.Description)] else [])
  ++ (if params.WithoutDescription then [("without_description", "true")] else [])
  ++ (if params.OrderField != "" then [("order_field", params.OrderField)] else [])
  ++ (if params.OrderDesc then [("order_desc", "on")] else [])
  ++ (if params.DistinctRates then [("distinct_rates", "on")] else [])
  ++ (if params.Rounding then [("rounding", "on")] else [])
  ++ (if params.DisplayHours != "" then [("display_hours", params.DisplayHours)] else [])

/-- `StandardRequestParameters` with every field at its Go zero value. -/
def zeroParams : StandardRequestParameters :=
  ⟨"", "", GoTime.zero, GoTime.zero, "", "", "", "", "", "", "", "", "", "",
   false, "", false, false, false, ""⟩

/-- The inner anonymous struct of `reports.ReportsError`. -/
structure ReportsErrorBody where
  Message : String
  Tip : String
  StatusCode : Int
deriving DecidableEq

/-- `reports.ReportsError`: the response of an unsuccessful request.  Its
fields are populated solely by JSON-decoding the response body. -/
structure ReportsError where
  Err : ReportsErrorBody
deriving DecidableEq

/-- `ReportsError.Error()`. -/
def ReportsError.error (e : ReportsError) : String :=
  "HTTP Status: " ++ toString e.Err.StatusCode ++ "\n" ++ e.Err.Message ++ "\n\n" ++
    e.Err.Tip ++ "\n"

/-- The Go `error` values the pipeline can return, tagged by provenance:
the wrapped message of `http.NewRequest` failures, the `fmt.Errorf`
context error, transport failures from `httpClient.Do`, JSON decoder
errors, and the typed `*ReportsError`. -/
inductive GoError where
  | newRequestFailed (msg : String)
  | contextRequired
  | transport (msg : String)
  | jsonDecode (msg : String)
  | reports (e : ReportsError)
deriving DecidableEq

/-- A failed run of `json.Decoder.Decode` into the caller's output: the
decoder's error message together with the write it performed on the
pointee before returning the error — Go's decoder may partially populate
the struct (for example on an `UnmarshalTypeError` it skips the
offending field, finishes the rest, and then reports the error), so the
pointee after a failed decode is a function of what it held before. -/
structure DecodeFailure (α : Type) where
  msg : String
  write : α → α

/-- An HTTP response as the pipeline sees it: the status code plus the
oracle outcomes of JSON-decoding the (single-read) body into the caller's
report type (on failure, including the decoder's partial write) and into
`ReportsError`. -/
structure Response (α : Type) where
  StatusCode : Int
  decodeBody : Except (DecodeFailure α) α
  decodeErrorBody : Except String ReportsError

/-- `decodeJSON(resp, report)` for the caller's output pointer: the
decoder either replaces the pointee with the decoded value, or fails
after leaving in the pointee whatever it wrote before the error. -/
def decodeJSON {α : Type} (resp : Response α) (report : α) : α × Option GoError :=
  match resp.decodeBody with
  | Except.error f => (f.write report, some (GoError.jsonDecode f.msg))
  | Except.ok out => (out, none)

/-- `decodeJSON(resp, reportsError)`: the standard decoder's outcome for
`ReportsError`. -/
def decodeJSONError {α : Type} (resp : Response α) : Except GoError ReportsError :=
  match resp.decodeErrorBody with
  | Except.error msg => Except.error (GoError.jsonDecode msg)
  | Except.ok out => Except.ok out

/-- `reports.checkResponse`: passes the transport error through; on a
status ≤ 199 or ≥ 300 decodes the body into a new `ReportsError` and
returns it as the error (or the decoder's error when that decoding
fails); otherwise returns the response unchanged. -/
def checkResponse {α : Type} (resp : Except GoError (Response α)) :
    Except GoError (Response α) :=
  match resp with
  | Except.error err => Except.error err
  | Except.ok resp =>
    if resp.StatusCode ≤ 199 ∨ 300 ≤ resp.StatusCode then
      match decodeJSONError resp with
      | Except.error err => Except.error err
      | Except.ok reportsError => Except.error (GoError.reports reportsError)
    else Except.ok resp

/-- The inputs `Client.get` draws from its environment: the outcome of
`http.NewRequest` (an error message exactly when the URL string is
invalid) and the outcome the transport `httpClient.Do` would produce if
invoked. -/
structure GetInput (α : Type) where
  newRequestErr : Option String
  doResult : Except String (Response α)

/-- The observable result of `Client.get`: the final value of the caller's
report (pointee), the returned error, and how many times the HTTP
transport was invoked. -/
structure GetResult (α : Type) where
  report : α
  err : Option GoError
  transportCalls : Nat
deriving DecidableEq

/-- `reports.Client.get`: build the request (returning `http.NewRequest`'s
error if the URL is invalid), reject a nil context, run the transport
once, branch through `checkResponse`, and decode a successful response
into the report — on a failed decode the report holds whatever the
decoder wrote into it before erroring. -/
def Client.get {α : Type} (c : Client) (ctx : Option Context) (inp : GetInput α)
    (report : α) : GetResult α :=
  match inp.newRequestErr with
  | some msg => ⟨report, some (GoError.newRequestFailed msg), 0⟩
  | none =>
    match ctx with
    | none => ⟨report, some GoError.contextRequired, 0⟩
    | some _ =>
      match checkResponse (match inp.doResult with
        | Except.error msg => Except.error (GoError.transport msg)
        | Except.ok resp => Except.ok resp) with
      | Except.error err => ⟨report, some err, 1⟩
      | Except.ok resp =>
        ⟨(decodeJSON resp report).1, (decodeJSON resp report).2, 1⟩

/-- `reports.Option`: a configuration function applied to the client under
construction (named `ClientOption` here because `Option` is taken). -/
def ClientOption : Type := Client → Client

/-- The `baseURL` option: parses the raw URL and stores the result (nil on
a parse failure, whose error is discarded). -/
def baseURL (rawurl : String) : ClientOption :=
  fun c => { c with url := urlParse rawurl }

/-- The `HTTPClient` option: sets the HTTP client used to send requests. -/
def HTTPClient (httpClient : HTTPTransport) : ClientOption :=
  fun c => { c with httpClient := httpClient }

/-- `reports.NewClient`: defaults (the default transport, the given token,
a header with `Content-type: application/json`, the parsed default base
URL), then the options applied in order. -/
def NewClient (apiToken : String) (options : List ClientOption) : Client :=
  let url := urlParse defaultBaseURL
  let newClient : Client :=
    { httpClient := HTTPTransport.defaultClient
      apiToken := apiToken
      header := headerSet [] "Content-type" "application/json"
      url := url }
  options.foldl (fun c option => option c) newClient

/-- `reports.Client.buildURL`: sets `c.url.Path = endpoint` (mutating the
client) and returns the URL string with the encoded parameters appended.
The result is `none` when `c.url` is nil, where the Go code dereferences a
nil pointer; the first component is the client as left by the call. -/
def Client.buildURL (c : Client) (endpoint : String) (encodedParams : String) :
    Option (Client × String) :=
  match c.url with
  | none => none
  | some u =>
    let u : URL := { u with path := endpoint }
    some ({ c with url := some u }, u.toString ++ "?" ++ encodedParams)

/-- The entry struct of the test's `detailedReport.Data`. -/
structure DetailedData where
  User : String
  Project : String
  Description : String
deriving DecidableEq

/-- The `detailedReport` output structure the tests decode into. -/
structure DetailedReport where
  TotalCount : Int
  PerPage : Int
  Data : List DetailedData
deriving DecidableEq

/-- The Go zero value of `detailedReport` (what `new(detailedReport)`
points at). -/
def DetailedReport.zero : DetailedReport := ⟨0, 0, []⟩

/-- Modelled from the spec: `Client.GetDetailed` (detailed.go is not under
src/) forwards the caller's context and output pointer to the shared `get`
pipeline with the detailed-report endpoint URL. -/
def Client.GetDetailed (c : Client) (ctx : Option Context)
    (inp : GetInput DetailedReport) (report : DetailedReport) : GetResult DetailedReport :=
  c.get ctx inp report

end reports

namespace toggl

/-- `toggl.Tag`: the properties of a tag (pointer fields are `Option`). -/
structure Tag where
  ID : Option Int
  WorkspaceID : Option Int
  Name : Option String
  At : Option GoTime
  DeletedAt : Option GoTime
deriving DecidableEq

/-- `toggl.CreateTagRequestBody`. -/
structure CreateTagRequestBody where
  Name : Option String
  WorkspaceID : Option Int
deriving DecidableEq

/-- `toggl.UpdateTagRequestBody`. -/
structure UpdateTagRequestBody where
  Name : Option String
  WorkspaceID : Option Int
deriving DecidableEq

/-- Modelled from the spec: the track API client configuration (client.go
is not under src/); it holds the basic-auth API token and the base URL,
overridable for testing. -/
structure Client where
  apiToken : String
  baseURL : String
deriving DecidableEq

/-- The typed error of the track API (`internal.ErrorResponse` in the
tests): the originating HTTP status code and the raw body as message. -/
structure ErrorResponse where
  StatusCode : Int
  Message : String
deriving DecidableEq

/-- The Go `error` values the track pipeline can return.  `wrap` models
`errors.Wrap(err, msg)` from github.com/pkg/errors. -/
inductive TrackError where
  | contextRequired
  | transport (msg : String)
  | jsonDecode (msg : String)
  | api (e : ErrorResponse)
  | wrap (msg : String) (inner : TrackError)
deriving DecidableEq

/-- An HTTP response as the track pipeline sees it: status code, raw body,
and the oracle outcome of JSON-decoding the body into the output type. -/
structure TrackResponse (α : Type) where
  StatusCode : Int
  body : String
  decodeBody : Except String α

/-- The observable result of one pipeline call: the value written through
the output pointer (`none` when it was left untouched), the returned
error, and how many HTTP round trips were performed. -/
structure TrackResult (α : Type) where
  out : Option α
  err : Option TrackError
  roundTrips : Nat
deriving DecidableEq

/-- Modelled from the spec: the shared request pipeline of the track
client (client.go is not under src/).  Per the spec's contract it performs
one HTTP round trip, decodes a 2xx body into the output, and turns a
non-2xx response into the typed error carrying the HTTP status code and
the body; a nil context is a reported error before any round trip. -/
def roundTrip (α : Type) (ctx : Option Context)
    (doResult : Except String (TrackResponse α)) : TrackResult α :=
  match ctx with
  | none => ⟨none, some TrackError.contextRequired, 0⟩
  | some _ =>
    match doResult with
    | Except.error msg => ⟨none, some (TrackError.transport msg), 1⟩
    | Except.ok resp =>
      if 200 ≤ resp.StatusCode ∧ resp.StatusCode ≤ 299 then
        match resp.decodeBody with
        | Except.error msg => ⟨none, some (TrackError.jsonDecode msg), 1⟩
        | Except.ok out => ⟨some out, none, 1⟩
      else ⟨none, some (TrackError.api ⟨resp.StatusCode, resp.body⟩), 1⟩

/-- Modelled from the spec: `workspacesPath` (defined in a file not under
src/) is the path segment under which the track API addresses workspaces. -/
def workspacesPath : String := "workspaces"

/-- `strconv.Itoa`. -/
def itoa (n : Int) : String := toString n

/-- `path.Join` on the clean, non-empty segments this package passes. -/
def pathJoin (elems : List String) : String := String.intercalate "/" elems

/-- Modelled from the spec: `Client.httpGet` issues a GET against the
given path through the shared pipeline. -/
def Client.httpGet (c : Client) (α : Type) (ctx : Option Context)
    (apiSpecificPath : String) (doResult : Except String (TrackResponse α)) :
    TrackResult α :=
  roundTrip α ctx doResult

/-- Modelled from the spec: `Client.httpPost` issues a POST with a JSON
body through the shared pipeline. -/
def Client.httpPost (c : Client) (α β : Type) (ctx : Option Context)
    (apiSpecificPath : String) (reqBody : β)
    (doResult : Except String (TrackResponse α)) : TrackResult α :=
  roundTrip α ctx doResult

/-- Modelled from the spec: `Client.httpPut` issues a PUT with a JSON body
through the shared pipeline. -/
def Client.httpPut (c : Client) (α β : Type) (ctx : Option Context)
    (apiSpecificPath : String) (reqBody : β)
    (doResult : Except String (TrackResponse α)) : TrackResult α :=
  roundTrip α ctx doResult

/-- `toggl.Client.GetTags`: one `httpGet` against
`workspaces/{workspaceID}/tags`; on error returns a nil slice and the
wrapped error, otherwise the decoded tags. -/
def Client.GetTags (c : Client) (ctx : Option Context) (workspaceID : Int)
    (doResult : Except String (TrackResponse (List Tag))) :
    Option (List Tag) × Option TrackError × Nat :=
  let apiSpecificPath := pathJoin [workspacesPath, itoa workspaceID, "tags"]
  let r := c.httpGet (List Tag) ctx apiSpecificPath doResult
  match r.err with
  | some err => (none, some (TrackError.wrap "" err), r.roundTrips)
  | none => (r.out, none, r.roundTrips)

/-- `toggl.Client.CreateTag`: one `httpPost` against
`workspaces/{workspaceID}/tags`. -/
def Client.CreateTag (c : Client) (ctx : Option Context) (workspaceID : Int)
    (reqBody : CreateTagRequestBody) (doResult : Except String (TrackResponse Tag)) :
    Option Tag × Option TrackError × Nat :=
  let apiSpecificPath := pathJoin [workspacesPath, itoa workspaceID, "tags"]
  let r := c.httpPost Tag CreateTagRequestBody ctx apiSpecificPath reqBody doResult
  match r.err with
  | some err => (none, some (TrackError.wrap "" err), r.roundTrips)
  | none => (r.out, none, r.roundTrips)

/-- `toggl.Client.UpdateTag`: one `httpPut` against
`workspaces/{workspaceID}/tags/{tagID}`. -/
def Client.UpdateTag (c : Client) (ctx : Option Context) (workspaceID tagID : Int)
    (reqBody : UpdateTagRequestBody) (doResult : Except String (TrackResponse Tag)) :
    Option Tag × Option TrackError × Nat :=
  let apiSpecificPath := pathJoin [workspacesPath, itoa workspaceID, "tags", itoa tagID]
  let r := c.httpPut Tag UpdateTagRequestBody ctx apiSpecificPath reqBody doResult
  match r.err with
  | some err => (none, some (TrackError.wrap "" err), r.roundTrips)
  | none => (r.out, none, r.roundTrips)

/-- `toggl.Client.DeleteTag`, exactly as the source has it: the body is
`return nil` — no request is built, the transport is never invoked, and a
nil error is returned unconditionally. -/
def Client.DeleteTag (c : Client) (ctx : Option Context) (workspaceID tagID : Int) :
    Option TrackError × Nat :=
  (none, 0)

/-- The decoded content of the fixture `get_tags_200_ok.json`, as the test
table records it: a single tag. -/
def fixtureGetTags200 : List Tag :=
  [⟨some 12345678, some 1234567, some "toggl-go", some ⟨2020, 1, 2, 3, 4, 5, 678901000⟩, none⟩]

end toggl

namespace reports

theorem any_optEntry (c : Bool) (kv : String × String) (p : String × String → Bool) :
    (if c then [kv] else []).any p = (c && p kv) := by
  cases c <;> simp

/-- C1 (counterexample): at the all-zero parameter object the encoded query
still contains the key `user_agent` although the `UserAgent` field is
empty, so a key is not present if and only if its field is non-empty. -/
theorem values_contains_user_agent_of_zero_params :
    ¬ (hasKey zeroParams.values "user_agent" = true ↔ zeroParams.UserAgent ≠ "") := by
  decide

/-- C1 (amended): the required keys `user_agent` and `workspace_id` are
always present in the encoded query, and every other field contributes its
key exactly when it is non-zero/non-empty (a string field when not `""`, a
time field when not the zero time, a boolean field when true). -/
theorem values_key_presence (params : StandardRequestParameters) :
    hasKey params.values "user_agent" = true ∧
    hasKey params.values "workspace_id" = true ∧
    hasKey params.values "since" = !params.Since.isZero ∧
    hasKey params.values "until" = !params.Until.isZero ∧
    hasKey params.values "billable" = (params.Billable != "") ∧
    hasKey params.values "client_ids" = (params.ClientIds != "") ∧
    hasKey params.values "project_ids" = (params.ProjectIds != "") ∧
    hasKey params.values "user_ids" = (params.UserIds != "") ∧
    hasKey params.values "members_of_group_ids" = (params.MembersOfGroupIds != "") ∧
    hasKey params.values "or_members_of_group_ids" = (params.OrMembersOfGroupIds != "") ∧
    hasKey params.values "tag_ids" = (params.TagIds != "") ∧
    hasKey params.values "task_ids" = (params.TaskIds != "") ∧
    hasKey params.values "time_entry_ids" = (params.TimeEntryIds != "") ∧
    hasKey params.values "description" = (params.Description != "") ∧
    hasKey params.values "without_description" = params.WithoutDescription ∧
    hasKey params.values "order_field" = (params.OrderField != "") ∧
    hasKey params.values "order_desc" = params.OrderDesc ∧
    hasKey params.values "distinct_rates" = params.DistinctRates ∧
    hasKey params.values "rounding" = params.Rounding ∧
    hasKey params.values "display_hours" = (params.DisplayHours != "") := by
  simp only [hasKey, StandardRequestParameters.values, List.any_append, any_optEntry,
    List.any_cons, List.any_nil]
  simp

end reports

namespace reports

/-- C2 (counterexample): a 2xx response whose body the JSON decoder
rejects makes `get` return the decoder's error, not a nil error, so a 2xx
status alone does not guarantee a populated output and nil error. -/
theorem get_2xx_undecodable_body_returns_error :
    ((NewClient "token" []).get (some Context.background)
        (⟨none, Except.ok ⟨200, Except.error ⟨"invalid character", id⟩, Except.error "unused"⟩⟩ :
          GetInput DetailedReport) DetailedReport.zero).err
      = some (GoError.jsonDecode "invalid character") := by
  rfl

/-- C2 (amended): with the request built and a non-nil context, a response
with status 200-299 whose body decodes into the output type yields the
decoded output and nil error, and a response with any other status whose
body decodes into `ReportsError` yields that typed error with the output
untouched; when the relevant decode fails, the decoder's error is
returned instead. -/
theorem get_status_branching {α : Type} (c : Client) (ctx : Context)
    (resp : Response α) (report : α) :
    (∀ v : α, 200 ≤ resp.StatusCode → resp.StatusCode ≤ 299 →
      resp.decodeBody = Except.ok v →
      c.get (some ctx) ⟨none, Except.ok resp⟩ report = ⟨v, none, 1⟩) ∧
    (∀ e : ReportsError, (resp.StatusCode ≤ 199 ∨ 300 ≤ resp.StatusCode) →
      resp.decodeErrorBody = Except.ok e →
      c.get (some ctx) ⟨none, Except.ok resp⟩ report
        = ⟨report, some (GoError.reports e), 1⟩) := by
  constructor
  · intro v h200 h299 hdec
    have hcond : ¬ (resp.StatusCode ≤ 199 ∨ 300 ≤ resp.StatusCode) := by omega
    simp [Client.get, checkResponse, decodeJSON, hcond, hdec]
  · intro e hcond hdec
    simp [Client.get, checkResponse, decodeJSONError, hcond, hdec]

/-- C2 (witness): the branching evaluated at a 200 response decoding to a
concrete report and at a 401 response decoding to a concrete typed error. -/
theorem get_status_branching_witness :
    (NewClient "token" []).get (some Context.background)
        (⟨none, Except.ok ⟨200, Except.ok ⟨1, 50, []⟩, Except.error "unused"⟩⟩ :
          GetInput DetailedReport) DetailedReport.zero
      = ⟨⟨1, 50, []⟩, none, 1⟩ ∧
    (NewClient "token" []).get (some Context.background)
        (⟨none, Except.ok ⟨401, Except.error ⟨"unused", id⟩,
            Except.ok ⟨⟨"api token missing", "see profile", 401⟩⟩⟩⟩ :
          GetInput DetailedReport) DetailedReport.zero
      = ⟨DetailedReport.zero,
          some (GoError.reports ⟨⟨"api token missing", "see profile", 401⟩⟩), 1⟩ :=
  ⟨(get_status_branching (NewClient "token" []) Context.background
      ⟨200, Except.ok ⟨1, 50, []⟩, Except.error "unused"⟩ DetailedReport.zero).1
      ⟨1, 50, []⟩ (by decide) (by decide) rfl,
   (get_status_branching (NewClient "token" []) Context.background
      ⟨401, Except.error ⟨"unused", id⟩, Except.ok ⟨⟨"api token missing", "see profile", 401⟩⟩⟩
      DetailedReport.zero).2
      ⟨⟨"api token missing", "see profile", 401⟩⟩ (by decide) rfl⟩

/-- C3 (counterexample): a non-2xx response with HTTP status 401 whose
body carries `code` 500 yields a typed error whose status-code field is
500 — the field is not equal to the HTTP status of the response. -/
theorem reports_error_code_not_http_status :
    ((NewClient "token" []).get (some Context.background)
        (⟨none, Except.ok ⟨401, Except.error ⟨"unused", id⟩,
            Except.ok ⟨⟨"msg", "tip", 500⟩⟩⟩⟩ : GetInput DetailedReport)
        DetailedReport.zero).err
      = some (GoError.reports ⟨⟨"msg", "tip", 500⟩⟩) ∧
    (ReportsError.mk ⟨"msg", "tip", 500⟩).Err.StatusCode ≠ 401 :=
  ⟨rfl, by decide⟩

/-- C3 (amended): for every non-2xx response whose body decodes, the typed
error returned to the caller is exactly the `ReportsError` decoded from
the response body — its message, tip and status-code field all come from
the body's JSON; the status-code field is never taken from the HTTP
status line. -/
theorem get_typed_error_decoded_from_body {α : Type} (c : Client) (ctx : Context)
    (resp : Response α) (report : α) (e : ReportsError)
    (hstatus : resp.StatusCode ≤ 199 ∨ 300 ≤ resp.StatusCode)
    (hdec : resp.decodeErrorBody = Except.ok e) :
    (c.get (some ctx) ⟨none, Except.ok resp⟩ report).err
      = some (GoError.reports e) := by
  simp [Client.get, checkResponse, decodeJSONError, hstatus, hdec]

/-- C3 (witness): the amended statement at a concrete 418 response whose
body carries code 418. -/
theorem get_typed_error_decoded_from_body_witness :
    ((NewClient "token" []).get (some Context.background)
        (⟨none, Except.ok ⟨418, Except.error ⟨"unused", id⟩,
            Except.ok ⟨⟨"teapot", "use a kettle", 418⟩⟩⟩⟩ : GetInput DetailedReport)
        DetailedReport.zero).err
      = some (GoError.reports ⟨⟨"teapot", "use a kettle", 418⟩⟩) :=
  get_typed_error_decoded_from_body (NewClient "token" []) Context.background
    ⟨418, Except.error ⟨"unused", id⟩, Except.ok ⟨⟨"teapot", "use a kettle", 418⟩⟩⟩
    DetailedReport.zero ⟨⟨"teapot", "use a kettle", 418⟩⟩ (by decide) rfl

/-- C4 (counterexample): a call with a nil context whose URL makes
`http.NewRequest` fail returns the request-construction error, not the
context-required error (the transport is still not invoked), because the
source checks the `NewRequest` error before the nil-context check. -/
theorem get_nil_context_invalid_url :
    (NewClient "token" []).get none
        (⟨some "missing protocol scheme", Except.error "unused"⟩ :
          GetInput DetailedReport) DetailedReport.zero
      = ⟨DetailedReport.zero,
          some (GoError.newRequestFailed "missing protocol scheme"), 0⟩ ∧
    GoError.newRequestFailed "missing protocol scheme" ≠ GoError.contextRequired :=
  ⟨rfl, by decide⟩

/-- C4 (amended): a nil context never lets `get` invoke the HTTP transport
(zero transport calls on every such run), and whenever request
construction succeeded the call returns exactly the context-required
error with the output untouched. -/
theorem get_nil_context_no_transport {α : Type} (c : Client) (inp : GetInput α)
    (report : α) :
    (c.get none inp report).transportCalls = 0 ∧
    (inp.newRequestErr = none →
      c.get none inp report = ⟨report, some GoError.contextRequired, 0⟩) := by
  constructor
  · cases h : inp.newRequestErr <;> simp [Client.get, h]
  · intro h
    simp [Client.get, h]

/-- C4 (witness): the amended statement at a concrete client and input
with a valid URL and a nil context. -/
theorem get_nil_context_no_transport_witness :
    ((NewClient "token" []).get none
        (⟨none, Except.error "unreachable"⟩ : GetInput DetailedReport)
        DetailedReport.zero).transportCalls = 0 ∧
    (NewClient "token" []).get none
        (⟨none, Except.error "unreachable"⟩ : GetInput DetailedReport)
        DetailedReport.zero
      = ⟨DetailedReport.zero, some GoError.contextRequired, 0⟩ :=
  ⟨(get_nil_context_no_transport (NewClient "token" [])
      ⟨none, Except.error "unreachable"⟩ DetailedReport.zero).1,
   (get_nil_context_no_transport (NewClient "token" [])
      ⟨none, Except.error "unreachable"⟩ DetailedReport.zero).2 rfl⟩

end reports

namespace reports

/-- C6 (counterexample): `buildURL` mutates the client it is called on —
after building a detailed-report URL the client differs from the one
`NewClient` returned (its URL's path component changed), so a
request-issuing operation does modify a field of the `Client`. -/
theorem buildURL_mutates_client :
    ((NewClient "token" []).buildURL "/reports/api/v2/details" "user_agent=ua").map
        Prod.fst
      ≠ some (NewClient "token" []) := by
  decide

/-- C6 (amended): the only mutation a request-issuing operation performs
on the client is `buildURL` overwriting the URL's path component with the
endpoint; the transport, the token, the headers and the URL's scheme and
host are exactly those of the incoming client. -/
theorem buildURL_changes_only_url_path (c : Client) (u : URL)
    (endpoint encodedParams : String) (h : c.url = some u) :
    c.buildURL endpoint encodedParams
      = some ({ c with url := some { u with path := endpoint } },
          ({ u with path := endpoint } : URL).toString ++ "?" ++ encodedParams) := by
  simp [Client.buildURL, h]

/-- C6 (witness): the amended statement at the freshly constructed
client, whose URL path starts empty. -/
theorem buildURL_changes_only_url_path_witness :
    (NewClient "token" []).buildURL "/reports/api/v2/details" "user_agent=ua"
      = some ({ NewClient "token" [] with
            url := some ⟨"https", "toggl.com", "/reports/api/v2/details"⟩ },
          "https://toggl.com/reports/api/v2/details?user_agent=ua") := by
  exact buildURL_changes_only_url_path (NewClient "token" []) ⟨"https", "toggl.com", ""⟩
    "/reports/api/v2/details" "user_agent=ua" rfl

/-- C8: `NewClient` with no options returns a client holding the given
token, the parsed default base URL (printing back as
`https://toggl.com`), a header carrying `Content-type: application/json`,
and the default HTTP client; the `baseURL` and `HTTPClient` options each
override exactly their corresponding field of that client. -/
theorem newClient_defaults_and_option_override (apiToken rawurl : String)
    (transport : HTTPTransport) :
    (NewClient apiToken []).apiToken = apiToken ∧
    (NewClient apiToken []).url = urlParse defaultBaseURL ∧
    (NewClient apiToken []).url = some ⟨"https", "toggl.com", ""⟩ ∧
    ((NewClient apiToken []).url.map URL.toString) = some defaultBaseURL ∧
    headerGet (NewClient apiToken []).header "Content-type" = "application/json" ∧
    (NewClient apiToken []).httpClient = HTTPTransport.defaultClient ∧
    NewClient apiToken [baseURL rawurl]
      = { NewClient apiToken [] with url := urlParse rawurl } ∧
    NewClient apiToken [HTTPClient transport]
      = { NewClient apiToken [] with httpClient := transport } := by
  refine ⟨rfl, rfl, rfl, rfl, rfl, rfl, rfl, rfl⟩

/-- C10: a non-2xx response whose body the decoder rejects for
`ReportsError` makes the pipeline return the JSON decoding error, and a
typed `ReportsError` is ever returned only when a response arrived and
its body decoded successfully into exactly that error value. -/
theorem non2xx_undecodable_body_returns_decode_error {α : Type} (c : Client)
    (ctx : Context) (resp : Response α) (report : α) (msg : String) :
    ((resp.StatusCode ≤ 199 ∨ 300 ≤ resp.StatusCode) →
      resp.decodeErrorBody = Except.error msg →
      c.get (some ctx) ⟨none, Except.ok resp⟩ report
        = ⟨report, some (GoError.jsonDecode msg), 1⟩) ∧
    (∀ (inp : GetInput α) (ctx2 : Option Context) (e : ReportsError),
      (c.get ctx2 inp report).err = some (GoError.reports e) →
      ∃ r : Response α, inp.doResult = Except.ok r ∧
        r.decodeErrorBody = Except.ok e) := by
  constructor
  · intro hstatus hdec
    simp [Client.get, checkResponse, decodeJSONError, hstatus, hdec]
  · intro inp ctx2 e h
    cases hreq : inp.newRequestErr with
    | some msg2 => simp [Client.get, hreq] at h
    | none =>
      cases ctx2 with
      | none => simp [Client.get, hreq] at h
      | some c0 =>
        cases hdo : inp.doResult with
        | error msg2 => simp [Client.get, checkResponse, hreq, hdo] at h
        | ok r =>
          refine ⟨r, rfl, ?_⟩
          by_cases hc : r.StatusCode ≤ 199 ∨ 300 ≤ r.StatusCode
          · cases hdecErr : r.decodeErrorBody with
            | error msg2 =>
              simp [Client.get, checkResponse, decodeJSONError, hreq, hdo, hc, hdecErr] at h
            | ok payload =>
              simp [Client.get, checkResponse, decodeJSONError, hreq, hdo, hc, hdecErr] at h
              rw [h]
          · cases hdecBody : r.decodeBody with
            | error msg2 =>
              simp [Client.get, checkResponse, decodeJSON, hreq, hdo, hc, hdecBody] at h
            | ok v =>
              simp [Client.get, checkResponse, decodeJSON, hreq, hdo, hc, hdecBody] at h

/-- C10 (witness): the statement at a concrete 429 response carrying an
HTML body the decoder rejects. -/
theorem non2xx_undecodable_body_returns_decode_error_witness :
    (NewClient "token" []).get (some Context.background)
        (⟨none, Except.ok ⟨429, Except.error ⟨"unused", id⟩,
            Except.error "invalid character after top-level value"⟩⟩ :
          GetInput DetailedReport) DetailedReport.zero
      = ⟨DetailedReport.zero,
          some (GoError.jsonDecode "invalid character after top-level value"), 1⟩ :=
  (non2xx_undecodable_body_returns_decode_error (NewClient "token" [])
      Context.background
      ⟨429, Except.error ⟨"unused", id⟩, Except.error "invalid character after top-level value"⟩
      DetailedReport.zero "invalid character after top-level value").1
    (by decide) rfl

/-- Case analysis on the `get` pipeline: every run either leaves the
caller's report untouched, returns a nil error, or is a failed decode of
a 2xx body, in which case the report holds the decoder's partial write
and the error is the decoder's. -/
theorem get_error_path_cases {α : Type} (c : Client) (ctx : Option Context)
    (inp : GetInput α) (report : α) :
    (c.get ctx inp report).report = report ∨ (c.get ctx inp report).err = none ∨
    ∃ (r : Response α) (f : DecodeFailure α),
      inp.doResult = Except.ok r ∧ ¬ (r.StatusCode ≤ 199 ∨ 300 ≤ r.StatusCode) ∧
      r.decodeBody = Except.error f ∧
      c.get ctx inp report = ⟨f.write report, some (GoError.jsonDecode f.msg), 1⟩ := by
  cases hreq : inp.newRequestErr with
  | some msg => left; simp [Client.get, hreq]
  | none =>
    cases ctx with
    | none => left; simp [Client.get, hreq]
    | some c0 =>
      cases hdo : inp.doResult with
      | error msg => left; simp [Client.get, checkResponse, hreq, hdo]
      | ok r =>
        by_cases hc : r.StatusCode ≤ 199 ∨ 300 ≤ r.StatusCode
        · left
          cases hde : r.decodeErrorBody <;>
            simp [Client.get, checkResponse, decodeJSONError, hreq, hdo, hc, hde]
        · cases hdb : r.decodeBody with
          | error f =>
            right; right
            exact ⟨r, f, rfl, hc, hdb, by
              simp [Client.get, checkResponse, decodeJSON, hreq, hdo, hc, hdb]⟩
          | ok v =>
            right; left
            simp [Client.get, checkResponse, decodeJSON, hreq, hdo, hc, hdb]

/-- C9 (counterexample): a 200 response whose body makes the JSON decoder
fail with an unmarshal type error after it has already written
`total_count = 3` into the output makes `GetDetailed` return a non-nil
error while the output no longer equals its zero value — an error path
has written into the output structure. -/
theorem getDetailed_partial_write_on_decode_error :
    ((NewClient "token" []).GetDetailed (some Context.background)
        (⟨none, Except.ok ⟨200,
            Except.error ⟨"cannot unmarshal string into field per_page of type int",
              fun r => { r with TotalCount := 3 }⟩,
            Except.error "unused"⟩⟩ : GetInput DetailedReport)
        DetailedReport.zero).err
      = some (GoError.jsonDecode
          "cannot unmarshal string into field per_page of type int") ∧
    ((NewClient "token" []).GetDetailed (some Context.background)
        (⟨none, Except.ok ⟨200,
            Except.error ⟨"cannot unmarshal string into field per_page of type int",
              fun r => { r with TotalCount := 3 }⟩,
            Except.error "unused"⟩⟩ : GetInput DetailedReport)
        DetailedReport.zero).report ≠ DetailedReport.zero :=
  ⟨rfl, by decide⟩

/-- C9 (amended): whenever `GetDetailed` returns a non-nil error the
output is left at its zero value, except on the one error path that
reaches the output decoder — a 2xx response whose body fails to decode —
where the output holds exactly what the decoder wrote before failing and
the returned error is the decoder's; `GetTags` returns a nil slice
whenever it returns a non-nil error. -/
theorem error_paths_output_partial_write :
    (∀ (c : Client) (ctx : Option Context) (inp : GetInput DetailedReport) (e : GoError),
      (c.GetDetailed ctx inp DetailedReport.zero).err = some e →
      (c.GetDetailed ctx inp DetailedReport.zero).report = DetailedReport.zero ∨
      ∃ (r : Response DetailedReport) (f : DecodeFailure DetailedReport),
        inp.doResult = Except.ok r ∧ 200 ≤ r.StatusCode ∧ r.StatusCode ≤ 299 ∧
        r.decodeBody = Except.error f ∧
        (c.GetDetailed ctx inp DetailedReport.zero).report
          = f.write DetailedReport.zero ∧
        e = GoError.jsonDecode f.msg) ∧
    (∀ (tc : toggl.Client) (ctx : Option Context) (workspaceID : Int)
        (doResult : Except String (toggl.TrackResponse (List toggl.Tag)))
        (e : toggl.TrackError),
      (tc.GetTags ctx workspaceID doResult).2.1 = some e →
      (tc.GetTags ctx workspaceID doResult).1 = none) := by
  constructor
  · intro c ctx inp e h
    simp only [Client.GetDetailed] at h ⊢
    rcases get_error_path_cases c ctx inp DetailedReport.zero with
      hrep | hnone | ⟨r, f, hdo, hc, hdb, hres⟩
    · exact Or.inl hrep
    · rw [hnone] at h
      exact absurd h (by simp)
    · right
      refine ⟨r, f, hdo, by omega, by omega, hdb, ?_, ?_⟩
      · rw [hres]
      · rw [hres] at h
        exact (Option.some.inj h).symm
  · intro tc ctx workspaceID doResult e h
    cases herr : (tc.httpGet (List toggl.Tag) ctx
        (toggl.pathJoin [toggl.workspacesPath, toggl.itoa workspaceID, "tags"])
        doResult).err with
    | some err => simp [toggl.Client.GetTags, herr]
    | none => simp [toggl.Client.GetTags, herr] at h

/-- C9 (witness): the amended statement evaluated at a nil context for
`GetDetailed` (the output stays at its zero value) and at a failing
transport for `GetTags` (a nil slice is returned). -/
theorem error_paths_output_partial_write_witness :
    (((NewClient "token" []).GetDetailed none
        (⟨none, Except.error "unreachable"⟩ : GetInput DetailedReport)
        DetailedReport.zero).report = DetailedReport.zero ∨
      ∃ (r : Response DetailedReport) (f : DecodeFailure DetailedReport),
        (⟨none, Except.error "unreachable"⟩ : GetInput DetailedReport).doResult
          = Except.ok r ∧
        200 ≤ r.StatusCode ∧ r.StatusCode ≤ 299 ∧
        r.decodeBody = Except.error f ∧
        ((NewClient "token" []).GetDetailed none
            (⟨none, Except.error "unreachable"⟩ : GetInput DetailedReport)
            DetailedReport.zero).report = f.write DetailedReport.zero ∧
        GoError.contextRequired = GoError.jsonDecode f.msg) ∧
    ((⟨"token", "https://track.example"⟩ : toggl.Client).GetTags
        (some Context.background) 1234567 (Except.error "connection refused")).1
      = none :=
  ⟨error_paths_output_partial_write.1 (NewClient "token" []) none
      ⟨none, Except.error "unreachable"⟩ GoError.contextRequired rfl,
   error_paths_output_partial_write.2 ⟨"token", "https://track.example"⟩
      (some Context.background) 1234567 (Except.error "connection refused")
      (toggl.TrackError.wrap "" (toggl.TrackError.transport "connection refused")) rfl⟩

end reports

namespace toggl

/-- C5: the `DeleteTag` resource method, called for workspace 1234567 and
tag 12345678 with a valid context, performs zero HTTP round trips and
returns a nil error — it neither populates an output nor produces a typed
error, contradicting the one-round-trip contract that the other tag
methods (here `GetTags` on the same workspace) do satisfy. -/
theorem deleteTag_performs_no_round_trip :
    Client.DeleteTag ⟨"token", "https://track.example"⟩ (some Context.background)
        1234567 12345678 = (none, 0) ∧
    (Client.GetTags ⟨"token", "https://track.example"⟩ (some Context.background)
        1234567 (Except.ok ⟨200, "[]", Except.ok []⟩)).2.2 = 1 :=
  ⟨rfl, rfl⟩

/-- C7: `GetTags` for workspace 1234567 against a 200 response whose body
is the fixture `get_tags_200_ok.json` returns, with no error, exactly one
tag, whose ID is 12345678 and whose name is `toggl-go`. -/
theorem getTags_fixture_yields_single_tag :
    (Client.GetTags ⟨"api_token", "https://mock.server"⟩ (some Context.background)
        1234567 (Except.ok ⟨200, "", Except.ok fixtureGetTags200⟩)).1
      = some fixtureGetTags200 ∧
    (Client.GetTags ⟨"api_token", "https://mock.server"⟩ (some Context.background)
        1234567 (Except.ok ⟨200, "", Except.ok fixtureGetTags200⟩)).2.1 = none ∧
    fixtureGetTags200.length = 1 ∧
    fixtureGetTags200.map Tag.ID = [some 12345678] ∧
    fixtureGetTags200.map Tag.Name = [some "toggl-go"] :=
  ⟨rfl, rfl, rfl, rfl, rfl⟩

end toggl
